import Mathlib

/-
  Verification of the TrenchBroom .def entity-definition parser
  (DefTokenizer / DefParser) against its natural-language specification.

  The C++ source is shallowly embedded:
  - the tokenizer works on an explicit character list with line/column counters;
  - the recursive-descent parser works on an explicit token list;
  - machine floats are modelled as exact rationals (Rat);
  - C++ exceptions become Except results;
  - the expression-language sub-parsers (ELParser, LegacyModelDefinitionParser),
    the EL expression operations (optimize, asString) and a few base-class
    primitives (Tokenizer read helpers, kdl::str_trim, vm bbox repair,
    EntityDefinitionClassInfo::resolveBaseClasses) are not part of the provided
    sources; they are either taken as parameters or modelled from the spec, as
    marked in the doc comments below.
-/

set_option maxHeartbeats 1000000

namespace TrenchBroom

/-- Token kinds of the .def tokenizer (the DefToken constants of the source;
the C++ bitmask enum is modelled as an inductive type). -/
inductive DefTokenType where
  | Integer
  | Decimal
  | QuotedString
  | OParenthesis
  | CParenthesis
  | OBrace
  | CBrace
  | Word
  | ODefinition
  | CDefinition
  | Semicolon
  | Newline
  | Comma
  | Equality
  | Minus
  | Eof
  deriving DecidableEq

/-- Human-readable token-kind names (DefParser::tokenNames), used in syntax
error messages. -/
def tokenName : DefTokenType → String
  | .Integer => "integer"
  | .Decimal => "decimal"
  | .QuotedString => "quoted string"
  | .OParenthesis => "'('"
  | .CParenthesis => "')'"
  | .OBrace => "'\x7b'"
  | .CBrace => "'\x7d'"
  | .Word => "word"
  | .ODefinition => "'/*'"
  | .CDefinition => "'*/'"
  | .Semicolon => "';'"
  | .Newline => "newline"
  | .Comma => "','"
  | .Equality => "'='"
  | .Minus => "'-'"
  | .Eof => "end of file"

/-- A token: kind, raw text, and the line/column at which it starts. -/
structure Token where
  type : DefTokenType
  data : String
  line : Nat
  column : Nat
  deriving DecidableEq

/-- A parser exception (ParserException): position and message. -/
structure PErr where
  line : Nat
  column : Nat
  msg : String
  deriving DecidableEq

/-- A warning reported through the ParserStatus collaborator. -/
structure Warning where
  line : Nat
  column : Nat
  msg : String
  deriving DecidableEq

/-- Error used when the explicit recursion fuel of a loop runs out.  The fuel
arguments model the (terminating) unbounded loops of the C++ source; every
theorem below supplies enough fuel for the loop in question, so this error is
never reachable in any statement proved here. -/
def fuelError : PErr := ⟨0, 0, "internal: out of fuel"⟩

/-- Modelled from the spec: the syntax error raised when an expected token-kind
set does not match the actual next token carries line, column, the
expected-kind description (derived from the token classifier) and the actual
token text (Parser::expect lives outside the provided sources). -/
def expectedError (types : List DefTokenType) (t : Token) : PErr :=
  ⟨t.line, t.column,
    "Expected " ++ String.intercalate ", " (types.map tokenName) ++ " but got " ++ t.data⟩

/-- DefParser::expect — succeed with the token iff its kind is in the mask. -/
def expect (types : List DefTokenType) (t : Token) : Except PErr Token :=
  if t.type ∈ types then .ok t else .error (expectedError types t)

/- ## The tokenizer (DefTokenizer::emitToken) -/

/-- Tokenizer state: remaining characters plus the 1-based line/column of the
cursor (the snapshot/restore value type of the scanner). -/
structure TState where
  input : List Char
  line : Nat
  column : Nat
  deriving DecidableEq

/-- Tokenizer::isWhitespace — blanks, tabs and line breaks. -/
def isWhitespaceChar (c : Char) : Bool :=
  c = ' ' ∨ c = '\t' ∨ c = '\n' ∨ c = '\r'

def lbraceChar : Char := Char.ofNat 123

def rbraceChar : Char := Char.ofNat 125

/-- DefTokenizer::WordDelims — the delimiter set ending a bare word. -/
def wordDelims : List Char :=
  [' ', '\t', '\n', '\r', '(', ')', '[', ']', lbraceChar, rbraceChar, ';', ',', '=']

def isWordDelim (c : Char) : Bool := wordDelims.contains c

def isDigitChar (c : Char) : Bool := 48 ≤ c.toNat ∧ c.toNat ≤ 57

/-- Modelled from the spec: Tokenizer::readInteger (base-class primitive, not in
the provided sources) accepts an optional sign followed by one or more digits,
the whole span running up to the next delimiter. -/
def isIntegerLit (cs : List Char) : Bool :=
  let body := match cs with
    | '-' :: ds => ds
    | '+' :: ds => ds
    | ds => ds
  ¬ body.isEmpty ∧ body.all isDigitChar

/-- Modelled from the spec: Tokenizer::readDecimal (base-class primitive, not in
the provided sources) accepts an optional sign and digits with at most one
decimal point, containing at least one digit. -/
def isDecimalLit (cs : List Char) : Bool :=
  let body := match cs with
    | '-' :: ds => ds
    | '+' :: ds => ds
    | ds => ds
  body.any isDigitChar ∧ body.count '.' ≤ 1 ∧
    body.all (fun ch => isDigitChar ch ∨ ch = '.')

/-- Advance the line/column counters over a list of consumed characters. -/
def advanceBy (cs : List Char) (line column : Nat) : Nat × Nat :=
  cs.foldl (fun p ch => if ch = '\n' then (p.1 + 1, 1) else (p.1, p.2 + 1)) (line, column)

/-- Whether the character after the cursor is whitespace (the '-' lookahead). -/
def lookAheadWhitespace (rest : List Char) : Bool :=
  match rest.head? with
  | some ch => isWhitespaceChar ch
  | none => false

/-- The shared tail of the '/' and '*' switch cases of DefTokenizer::emitToken.
In the C++ source both cases end in an explicit fallthrough: a '*' (or a '/'
that began neither comment form) first tests whether the next character is '/'
(the close-definition marker, a single advance) and otherwise falls through
into the '(' case, which consumes one character and returns an
open-parenthesis token. -/
def fallthroughStar (c : Char) (rest : List Char) (ln col : Nat) :
    Except PErr (Token × TState) :=
  if rest.head? = some '/' then
    .ok (⟨.CDefinition, String.mk [c], ln, col⟩, ⟨rest, ln, col + 1⟩)
  else
    .ok (⟨.OParenthesis, String.mk [c], ln, col⟩, ⟨rest, ln, col + 1⟩)

/-- DefTokenizer::emitToken — produce the next token (or a lexical error).
Comment and blank runs are discarded and scanning continues, which is the only
recursion; it consumes at least one character per round.  The quoted-string,
integer, decimal and word read primitives of the Tokenizer base class are not
in the provided sources and are modelled from the spec (rules 7 and 9 of the
scanner contract). -/
def emitToken : TState → Except PErr (Token × TState)
  | ⟨[], ln, col⟩ => .ok (⟨.Eof, "", ln, col⟩, ⟨[], ln, col⟩)
  | ⟨c :: rest, ln, col⟩ =>
    if c = '/' then
      if rest.head? = some '*' then
        -- block-comment open; also eat every non-whitespace character after
        -- the '*' (it is often directly followed by a game tag such as QUAKE)
        let tag := rest.tail.takeWhile (fun ch => ¬ isWhitespaceChar ch)
        let after := rest.tail.dropWhile (fun ch => ¬ isWhitespaceChar ch)
        let p := advanceBy (c :: '*' :: tag) ln col
        .ok (⟨.ODefinition, String.mk (c :: '*' :: tag), ln, col⟩, ⟨after, p.1, p.2⟩)
      else if rest.head? = some '/' then
        -- line comment: discard up to the end of the line, then keep scanning
        -- (the leading '/' is dropped here directly; it is not a line break)
        let dropped := rest.takeWhile (fun ch => ¬ (ch = '\n' ∨ ch = '\r'))
        let p := advanceBy (c :: dropped) ln col
        emitToken ⟨rest.dropWhile (fun ch => ¬ (ch = '\n' ∨ ch = '\r')), p.1, p.2⟩
      else
        fallthroughStar c rest ln col
    else if c = '*' then
      fallthroughStar c rest ln col
    else if c = '(' then
      .ok (⟨.OParenthesis, String.mk [c], ln, col⟩, ⟨rest, ln, col + 1⟩)
    else if c = ')' then
      .ok (⟨.CParenthesis, String.mk [c], ln, col⟩, ⟨rest, ln, col + 1⟩)
    else if c = lbraceChar then
      .ok (⟨.OBrace, String.mk [c], ln, col⟩, ⟨rest, ln, col + 1⟩)
    else if c = rbraceChar then
      .ok (⟨.CBrace, String.mk [c], ln, col⟩, ⟨rest, ln, col + 1⟩)
    else if c = '=' then
      .ok (⟨.Equality, String.mk [c], ln, col⟩, ⟨rest, ln, col + 1⟩)
    else if c = ';' then
      .ok (⟨.Semicolon, String.mk [c], ln, col⟩, ⟨rest, ln, col + 1⟩)
    else if c = '\r' then
      -- carriage return, optionally followed by a line feed, then the
      -- fallthrough into the line-feed case
      if rest.head? = some '\n' then
        .ok (⟨.Newline, String.mk [c], ln, col⟩, ⟨rest.tail, ln + 1, 1⟩)
      else
        .ok (⟨.Newline, String.mk [c], ln, col⟩, ⟨rest, ln + 1, 1⟩)
    else if c = '\n' then
      .ok (⟨.Newline, String.mk [c], ln, col⟩, ⟨rest, ln + 1, 1⟩)
    else if c = ',' then
      .ok (⟨.Comma, String.mk [c], ln, col⟩, ⟨rest, ln, col + 1⟩)
    else if c = ' ' ∨ c = '\t' then
      -- blanks and tabs are discarded and scanning continues
      let dropped := rest.takeWhile (fun ch => ch = ' ' ∨ ch = '\t')
      let p := advanceBy (c :: dropped) ln col
      emitToken ⟨rest.dropWhile (fun ch => ch = ' ' ∨ ch = '\t'), p.1, p.2⟩
    else if c = '"' then
      -- quoted string: read to the matching closing quote
      let content := rest.takeWhile (fun ch => ch ≠ '"')
      let after := (rest.dropWhile (fun ch => ch ≠ '"')).tail
      let p := advanceBy (c :: content ++ ['"']) ln col
      .ok (⟨.QuotedString, String.mk content, ln, col⟩, ⟨after, p.1, p.2⟩)
    else if c = '-' ∧ lookAheadWhitespace rest then
      .ok (⟨.Minus, String.mk [c], ln, col⟩, ⟨rest, ln, col + 1⟩)
    else
      -- integer, decimal or word, up to the next delimiter
      let w := (c :: rest).takeWhile (fun ch => ¬ isWordDelim ch)
      let after := (c :: rest).dropWhile (fun ch => ¬ isWordDelim ch)
      if w.isEmpty then
        .error ⟨ln, col, "Unexpected character: " ++ String.mk [c]⟩
      else
        let ty : DefTokenType :=
          if isIntegerLit w then .Integer
          else if isDecimalLit w then .Decimal
          else .Word
        let p := advanceBy w ln col
        .ok (⟨ty, String.mk w, ln, col⟩, ⟨after, p.1, p.2⟩)
  termination_by s => s.input.length
  decreasing_by
    all_goals simp
    all_goals exact Nat.lt_succ_of_le (List.dropWhile_sublist _).length_le

/- ## Numeric token values

Token::toFloat parses the raw token text as a number.  Machine floats are
modelled as exact rationals. -/

def digitVal (c : Char) : Nat := c.toNat - 48

def natOfDigits (cs : List Char) : Nat :=
  cs.foldl (fun a c => 10 * a + digitVal c) 0

/-- Numeric value of a (sign, digits, optional fraction) literal. -/
def ratOfMagnitude (cs : List Char) : Rat :=
  let ip := cs.takeWhile (fun c => c ≠ '.')
  let fp := (cs.dropWhile (fun c => c ≠ '.')).tail
  (natOfDigits ip : Rat) + (natOfDigits fp : Rat) / ((10 : Rat) ^ fp.length)

/-- Token::toFloat on the raw text (exact-rational model of the float parse). -/
def ratOfString (s : String) : Rat :=
  match s.data with
  | [] => 0
  | c :: cs =>
    if c = '-' then - ratOfMagnitude cs
    else if c = '+' then ratOfMagnitude cs
    else ratOfMagnitude (c :: cs)

def Token.toFloat (t : Token) : Rat := ratOfString t.data

/- ## Value types of the parser -/

/-- RGBA color with exact-rational channels. -/
structure Color where
  r : Rat
  g : Rat
  b : Rat
  a : Rat
  deriving DecidableEq

/-- 3-vector with exact-rational components (vm::vec3). -/
structure Vec3 where
  x : Rat
  y : Rat
  z : Rat
  deriving DecidableEq

/-- Axis-aligned box (vm::bbox3). -/
structure BBox3 where
  min : Vec3
  max : Vec3
  deriving DecidableEq

def vecMin (u v : Vec3) : Vec3 := ⟨min u.x v.x, min u.y v.y, min u.z v.z⟩

def vecMax (u v : Vec3) : Vec3 := ⟨max u.x v.x, max u.y v.y, max u.z v.z⟩

/-- Componentwise order on 3-vectors. -/
def Vec3.le (u v : Vec3) : Prop := u.x ≤ v.x ∧ u.y ≤ v.y ∧ u.z ≤ v.z

/-- Modelled from the spec: the vm-library box repair applied by parseBounds is
not in the provided sources; per the spec, component-wise the stored minimum is
the element-wise minimum and the stored maximum the element-wise maximum of
the two corners. -/
def repair (b : BBox3) : BBox3 := ⟨vecMin b.min b.max, vecMax b.min b.max⟩

/-- One option of a flags attribute (FlagsAttributeDefinition option). -/
structure FlagOption where
  value : Nat
  shortDescription : String
  longDescription : String
  isDefault : Bool
  deriving DecidableEq

/-- One option of a choice attribute (Assets::ChoiceAttributeOption). -/
structure ChoiceOption where
  name : String
  value : String
  deriving DecidableEq

/-- Attribute definitions produced by this parser: the Flags variant
(spawnflags) and the Choice variant. -/
inductive AttributeDefinition where
  | flags (name : String) (options : List FlagOption)
  | choice (name shortDescription longDescription : String)
      (options : List ChoiceOption) (readOnly : Bool)
  deriving DecidableEq

def AttributeDefinition.isFlags : AttributeDefinition → Bool
  | .flags _ _ => true
  | .choice _ _ _ _ _ => false

def AttributeDefinition.defName : AttributeDefinition → String
  | .flags n _ => n
  | .choice n _ _ _ _ => n

/-- Model::AttributeNames::Spawnflags (a string constant outside the provided
sources; its value is the flag-attribute name used for spawnflag clauses). -/
def spawnflagsName : String := "spawnflags"

/-- A parsed model definition wrapping an expression of the (abstracted)
expression language. -/
structure ModelDefinition (Expr : Type) where
  expression : Expr
  deriving DecidableEq

/-- The two model-expression sub-parsers and the expression operations used by
DefParser::parseModel.  ELParser, LegacyModelDefinitionParser and the EL
expression type are outside the provided sources, so parseModel is verified
for every choice of these components. -/
structure ModelParsers (Expr : Type) where
  modern : List Token → Except PErr (Expr × List Token)
  legacy : List Token → Except PErr (Expr × List Token)
  optimize : Expr → Expr
  asString : Expr → String

/-- EntityDefinitionClassInfo: the mutable accumulator for one class
declaration; optional fields track the has-X flags of the C++ class. -/
structure EntityDefinitionClassInfo (Expr : Type) where
  name : String := ""
  color : Option Color := none
  size : Option BBox3 := none
  attributes : List AttributeDefinition := []
  description : Option String := none
  modelDef : Option (ModelDefinition Expr) := none
  deriving DecidableEq

namespace EntityDefinitionClassInfo

variable {Expr : Type}

def setColor (ci : EntityDefinitionClassInfo Expr) (c : Color) :
    EntityDefinitionClassInfo Expr := { ci with color := some c }

def setSize (ci : EntityDefinitionClassInfo Expr) (b : BBox3) :
    EntityDefinitionClassInfo Expr := { ci with size := some b }

def setDescription (ci : EntityDefinitionClassInfo Expr) (d : String) :
    EntityDefinitionClassInfo Expr := { ci with description := some d }

def setModelDefinition (ci : EntityDefinitionClassInfo Expr) (m : ModelDefinition Expr) :
    EntityDefinitionClassInfo Expr := { ci with modelDef := some m }

def addAttributeDefinition (ci : EntityDefinitionClassInfo Expr) (a : AttributeDefinition) :
    EntityDefinitionClassInfo Expr := { ci with attributes := ci.attributes ++ [a] }

end EntityDefinitionClassInfo

/-- The finalized class descriptors: point classes (color and size) and brush
classes (color only). -/
inductive EntityDefinition (Expr : Type) where
  | point (name : String) (color : Color) (size : BBox3) (description : String)
      (attributes : List AttributeDefinition) (modelDef : Option (ModelDefinition Expr))
  | brush (name : String) (color : Color) (description : String)
      (attributes : List AttributeDefinition)
  deriving DecidableEq

/-- The base-class registry (m_baseClasses): class name to Class-Info, with
std::map assignment semantics. -/
def Registry (Expr : Type) := String → Option (EntityDefinitionClassInfo Expr)

def emptyRegistry {Expr : Type} : Registry Expr := fun _ => none

/-- m_baseClasses[name] = classInfo — overwrite the entry for the name. -/
def baseInsert {Expr : Type} (R : Registry Expr) (n : String)
    (ci : EntityDefinitionClassInfo Expr) : Registry Expr :=
  fun m => if m = n then some ci else R m

/-- Registry lookup. -/
def lookupBase {Expr : Type} (R : Registry Expr) (n : String) :
    Option (EntityDefinitionClassInfo Expr) := R n

/-- Modelled from the spec: EntityDefinitionClassInfo::resolveBaseClasses is
outside the provided sources.  Inheriting from one base fills in only the
fields the current declaration left unset (explicit fields win) and appends
the base's attribute definitions whose names the child does not define. -/
def inheritFrom {Expr : Type} (child base : EntityDefinitionClassInfo Expr) :
    EntityDefinitionClassInfo Expr :=
  { child with
    color := match child.color with
      | some c => some c
      | none => base.color
    size := match child.size with
      | some s => some s
      | none => base.size
    description := match child.description with
      | some d => some d
      | none => base.description
    modelDef := match child.modelDef with
      | some m => some m
      | none => base.modelDef
    attributes := child.attributes ++ base.attributes.filter
      (fun a => child.attributes.all (fun b => b.defName ≠ a.defName)) }

/-- Modelled from the spec: resolve the declared base-class names, in order,
against the registry; names not yet registered contribute nothing (single
forward pass). -/
def resolveBaseClasses {Expr : Type} (R : Registry Expr) (supers : List String)
    (ci : EntityDefinitionClassInfo Expr) : EntityDefinitionClassInfo Expr :=
  supers.foldl
    (fun acc n =>
      match lookupBase R n with
      | none => acc
      | some base => inheritFrom acc base) ci

/- ## Token-stream primitives of the parser -/

/-- The token the tokenizer yields at end of input. -/
def eofToken : Token := ⟨.Eof, "", 0, 0⟩

/-- m_tokenizer.nextToken() on a token list: pop the head; at end of input the
Eof token is produced repeatably. -/
def nextToken : List Token → Token × List Token
  | [] => (eofToken, [])
  | t :: ts => (t, ts)

/-- m_tokenizer.peekToken(). -/
def peekToken : List Token → Token
  | [] => eofToken
  | t :: _ => t

/-- DefParser::nextTokenIgnoringNewlines — pop tokens until one is not a
newline. -/
def nextTokenIgnoringNewlines : List Token → Token × List Token
  | [] => (eofToken, [])
  | t :: ts => if t.type = .Newline then nextTokenIgnoringNewlines ts else (t, ts)

/-- Line of the scanner position (the line at which the next token starts). -/
def stateLine : List Token → Nat
  | [] => 0
  | t :: _ => t.line

/-- Column of the scanner position. -/
def stateColumn : List Token → Nat
  | [] => 0
  | t :: _ => t.column

/- ## Leaf grammar productions -/

/-- One component of a vector: an integer or decimal token, as a rational
(DefParser::parseVector loop body). -/
def parseNumToken (ts : List Token) : Except PErr (Rat × List Token) :=
  match expect [.Integer, .Decimal] (nextToken ts).1 with
  | .error e => .error e
  | .ok tok => .ok (tok.toFloat, (nextToken ts).2)

/-- DefParser::parseVector — three integer/decimal components. -/
def parseVector (ts : List Token) : Except PErr (Vec3 × List Token) :=
  match parseNumToken ts with
  | .error e => .error e
  | .ok (x, ts₁) =>
    match parseNumToken ts₁ with
    | .error e => .error e
    | .ok (y, ts₂) =>
      match parseNumToken ts₂ with
      | .error e => .error e
      | .ok (z, ts₃) => .ok (⟨x, y, z⟩, ts₃)

/-- DefParser::parseBounds — two parenthesized 3-vectors, then the box repair. -/
def parseBounds (ts : List Token) : Except PErr (BBox3 × List Token) :=
  match expect [.OParenthesis] (nextToken ts).1 with
  | .error e => .error e
  | .ok _ =>
    match parseVector (nextToken ts).2 with
    | .error e => .error e
    | .ok (mn, ts₁) =>
      match expect [.CParenthesis] (nextToken ts₁).1 with
      | .error e => .error e
      | .ok _ =>
        match expect [.OParenthesis] (nextToken (nextToken ts₁).2).1 with
        | .error e => .error e
        | .ok _ =>
          match parseVector (nextToken (nextToken ts₁).2).2 with
          | .error e => .error e
          | .ok (mx, ts₂) =>
            match expect [.CParenthesis] (nextToken ts₂).1 with
            | .error e => .error e
            | .ok _ => .ok (repair ⟨mn, mx⟩, (nextToken ts₂).2)

/-- The component transformation of DefParser::parseColor: a raw value above
1.0 is an 8-bit channel and is divided by 255, otherwise it is kept. -/
def colorComponent (v : Rat) : Rat := if v > 1 then v / 255 else v

/-- One color component: a decimal or integer token, transformed. -/
def parseColorComponent (ts : List Token) : Except PErr (Rat × List Token) :=
  match expect [.Decimal, .Integer] (nextToken ts).1 with
  | .error e => .error e
  | .ok tok => .ok (colorComponent tok.toFloat, (nextToken ts).2)

/-- DefParser::parseColor — three components in parentheses; the alpha channel
is set to 1 unconditionally. -/
def parseColor (ts : List Token) : Except PErr (Color × List Token) :=
  match expect [.OParenthesis] (nextToken ts).1 with
  | .error e => .error e
  | .ok _ =>
    match parseColorComponent (nextToken ts).2 with
    | .error e => .error e
    | .ok (r, ts₁) =>
      match parseColorComponent ts₁ with
      | .error e => .error e
      | .ok (g, ts₂) =>
        match parseColorComponent ts₂ with
        | .error e => .error e
        | .ok (b, ts₃) =>
          match expect [.CParenthesis] (nextToken ts₃).1 with
          | .error e => .error e
          | .ok _ => .ok (⟨r, g, b, 1⟩, (nextToken ts₃).2)

/-- The loop of DefParser::parseSpawnflags: consume word/minus tokens; the
k-th consumed token (0-based, counting from numOptions) becomes one option
with bit-value 2 ^ k — the C++ 1 << numOptions, modelled as the exact power
of two — and an empty name if the token was a minus. -/
def parseSpawnflagsLoop (numOptions : Nat) (options : List FlagOption) :
    List Token → List FlagOption × List Token
  | [] => (options, [])
  | t :: ts =>
    if t.type = .Word ∨ t.type = .Minus then
      let name := if t.type = .Word then t.data else ""
      parseSpawnflagsLoop (numOptions + 1) (options ++ [⟨2 ^ numOptions, name, "", false⟩]) ts
    else (options, t :: ts)

/-- DefParser::parseSpawnflags — a flags attribute named spawnflags built from
the run of word/minus tokens at the cursor. -/
def parseSpawnflags (ts : List Token) : AttributeDefinition × List Token :=
  let r := parseSpawnflagsLoop 0 [] ts
  (.flags spawnflagsName r.1, r.2)

/- ## The model-expression sub-parser (DefParser::parseModel) -/

/-- The deprecation warning text for a legacy model expression, around the
suggested modern-syntax replacement. -/
def legacyWarningMessage (replacement : String) : String :=
  "Legacy model expressions are deprecated, replace with '" ++ replacement ++ "'"

/-- Result of parseModel: the parsed model definition or the propagated error,
together with the scanner state after the call (meaningful also on failure,
where the C++ code restores the snapshot before re-throwing) and the warnings
emitted through the status collaborator. -/
structure ModelParseResult (Expr : Type) where
  result : Except PErr (ModelDefinition Expr)
  tokens : List Token
  warns : List Warning

/-- The catch-block of parseModel: restore the snapshot, run the legacy
grammar; on its success expect the closing parenthesis, optimize, emit the
deprecation warning at the snapshot position and return; on any failure
restore the snapshot again and re-raise the original error. -/
def parseModelLegacyTrial {Expr : Type} (P : ModelParsers Expr)
    (snapshot : List Token) (ln col : Nat) (origErr : PErr) : ModelParseResult Expr :=
  match P.legacy snapshot with
  | .ok (expr, ts₂) =>
    match expect [.CParenthesis] (nextToken ts₂).1 with
    | .ok _ =>
      let e := P.optimize expr
      ⟨.ok ⟨e⟩, (nextToken ts₂).2,
        [⟨ln, col, legacyWarningMessage (P.asString e)⟩]⟩
    | .error _ => ⟨.error origErr, snapshot, []⟩
  | .error _ => ⟨.error origErr, snapshot, []⟩

/-- DefParser::parseModel — consume the opening parenthesis, snapshot the
scanner, try the modern expression grammar, and fall back to the legacy
grammar on a parser exception. -/
def parseModel {Expr : Type} (P : ModelParsers Expr) (ts : List Token) :
    ModelParseResult Expr :=
  match expect [.OParenthesis] (nextToken ts).1 with
  | .error e => ⟨.error e, (nextToken ts).2, []⟩
  | .ok _ =>
    let snapshot := (nextToken ts).2
    let ln := stateLine snapshot
    let col := stateColumn snapshot
    match P.modern snapshot with
    | .ok (expr, ts₁) =>
      match expect [.CParenthesis] (nextToken ts₁).1 with
      | .ok _ => ⟨.ok ⟨P.optimize expr⟩, (nextToken ts₁).2, []⟩
      | .error e => parseModelLegacyTrial P snapshot ln col e
    | .error e => parseModelLegacyTrial P snapshot ln col e

/- ## Attributes (DefParser::parseAttribute and helpers) -/

/-- DefParser::parseDefaultAttribute — default(STRING, STRING), parsed for
well-formedness and discarded. -/
def parseDefaultAttribute (ts : List Token) : Except PErr (List Token) :=
  match expect [.OParenthesis] (nextTokenIgnoringNewlines ts).1 with
  | .error e => .error e
  | .ok _ =>
    let ts₁ := (nextTokenIgnoringNewlines ts).2
    match expect [.QuotedString] (nextTokenIgnoringNewlines ts₁).1 with
    | .error e => .error e
    | .ok _ =>
      let ts₂ := (nextTokenIgnoringNewlines ts₁).2
      match expect [.Comma] (nextTokenIgnoringNewlines ts₂).1 with
      | .error e => .error e
      | .ok _ =>
        let ts₃ := (nextTokenIgnoringNewlines ts₂).2
        match expect [.QuotedString] (nextTokenIgnoringNewlines ts₃).1 with
        | .error e => .error e
        | .ok _ =>
          let ts₄ := (nextTokenIgnoringNewlines ts₃).2
          match expect [.CParenthesis] (nextTokenIgnoringNewlines ts₄).1 with
          | .error e => .error e
          | .ok _ => .ok (nextTokenIgnoringNewlines ts₄).2

/-- DefParser::parseBaseAttribute — base(STRING), yielding the base name. -/
def parseBaseAttribute (ts : List Token) : Except PErr (String × List Token) :=
  match expect [.OParenthesis] (nextTokenIgnoringNewlines ts).1 with
  | .error e => .error e
  | .ok _ =>
    let ts₁ := (nextTokenIgnoringNewlines ts).2
    match expect [.QuotedString] (nextTokenIgnoringNewlines ts₁).1 with
    | .error e => .error e
    | .ok nameTok =>
      let ts₂ := (nextTokenIgnoringNewlines ts₁).2
      match expect [.CParenthesis] (nextTokenIgnoringNewlines ts₂).1 with
      | .error e => .error e
      | .ok _ => .ok (nameTok.data, (nextTokenIgnoringNewlines ts₂).2)

/-- The option loop of DefParser::parseChoiceAttribute; the current token has
already been read.  Fuel bounds the iteration count; the wrapper passes more
fuel than there are tokens, and the exit test precedes the fuel check. -/
def parseChoiceOptionsLoop (fuel : Nat) (options : List ChoiceOption)
    (tok : Token) (ts : List Token) :
    Except PErr (List ChoiceOption × Token × List Token) :=
  if tok.type = .OParenthesis then
    match fuel with
    | 0 => .error fuelError
    | fuel + 1 =>
      let p₁ := nextTokenIgnoringNewlines ts
      match expect [.Integer] p₁.1 with
      | .error e => .error e
      | .ok nameTok =>
        let p₂ := nextTokenIgnoringNewlines p₁.2
        match expect [.Comma] p₂.1 with
        | .error e => .error e
        | .ok _ =>
          let p₃ := nextTokenIgnoringNewlines p₂.2
          match expect [.QuotedString] p₃.1 with
          | .error e => .error e
          | .ok valueTok =>
            let p₄ := nextTokenIgnoringNewlines p₃.2
            match expect [.CParenthesis] p₄.1 with
            | .error e => .error e
            | .ok _ =>
              let p₅ := nextTokenIgnoringNewlines p₄.2
              parseChoiceOptionsLoop fuel (options ++ [⟨nameTok.data, valueTok.data⟩]) p₅.1 p₅.2
  else .ok (options, tok, ts)

/-- DefParser::parseChoiceAttribute — choice STRING followed by a parenthesized
(possibly empty) list of (INTEGER, STRING) options. -/
def parseChoiceAttribute (ts : List Token) :
    Except PErr (AttributeDefinition × List Token) :=
  match expect [.QuotedString] (nextToken ts).1 with
  | .error e => .error e
  | .ok nameTok =>
    let ts₁ := (nextToken ts).2
    match expect [.OParenthesis] (nextTokenIgnoringNewlines ts₁).1 with
    | .error e => .error e
    | .ok _ =>
      let ts₂ := (nextTokenIgnoringNewlines ts₁).2
      let p := nextTokenIgnoringNewlines ts₂
      match parseChoiceOptionsLoop (ts₂.length + 1) [] p.1 p.2 with
      | .error e => .error e
      | .ok (options, tokEnd, ts₃) =>
        match expect [.CParenthesis] tokEnd with
        | .error e => .error e
        | .ok _ => .ok (.choice nameTok.data "" "" options false, ts₃)

/-- DefParser::parseAttribute — read one attribute inside the brace block.
Returns false (and stops the loop) at the closing brace; dispatches on the
leading word: default is parsed and discarded, base appends a superclass
name, choice adds a choice attribute, model sets the model definition, and
any other word falls through all branches unhandled; a semicolon is then
required. -/
def parseAttribute {Expr : Type} (P : ModelParsers Expr)
    (ci : EntityDefinitionClassInfo Expr) (supers : List String) (ts : List Token) :
    Except PErr (Bool × EntityDefinitionClassInfo Expr × List String × List Token × List Warning) :=
  let p := nextTokenIgnoringNewlines ts
  match expect [.Word, .CBrace] p.1 with
  | .error e => .error e
  | .ok tok =>
    if tok.type ≠ .Word then .ok (false, ci, supers, p.2, [])
    else
      let dispatched : Except PErr (EntityDefinitionClassInfo Expr × List String × List Token × List Warning) :=
        if tok.data = "default" then
          match parseDefaultAttribute p.2 with
          | .error e => .error e
          | .ok ts₁ => .ok (ci, supers, ts₁, [])
        else if tok.data = "base" then
          match parseBaseAttribute p.2 with
          | .error e => .error e
          | .ok (basename, ts₁) => .ok (ci, supers ++ [basename], ts₁, [])
        else if tok.data = "choice" then
          match parseChoiceAttribute p.2 with
          | .error e => .error e
          | .ok (attr, ts₁) => .ok (ci.addAttributeDefinition attr, supers, ts₁, [])
        else if tok.data = "model" then
          let r := parseModel P p.2
          match r.result with
          | .error e => .error e
          | .ok md => .ok (ci.setModelDefinition md, supers, r.tokens, r.warns)
        else
          .ok (ci, supers, p.2, [])
      match dispatched with
      | .error e => .error e
      | .ok (ci₁, supers₁, ts₁, ws) =>
        match expect [.Semicolon] (nextTokenIgnoringNewlines ts₁).1 with
        | .error e => .error e
        | .ok _ => .ok (true, ci₁, supers₁, (nextTokenIgnoringNewlines ts₁).2, ws)

/-- The while-loop of DefParser::parseAttributes. -/
def parseAttributesLoop {Expr : Type} (P : ModelParsers Expr) (fuel : Nat)
    (ci : EntityDefinitionClassInfo Expr) (supers : List String) (ts : List Token)
    (ws : List Warning) :
    Except PErr (EntityDefinitionClassInfo Expr × List String × List Token × List Warning) :=
  match fuel with
  | 0 => .error fuelError
  | fuel + 1 =>
    match parseAttribute P ci supers ts with
    | .error e => .error e
    | .ok (cont, ci₁, supers₁, ts₁, w₁) =>
      if cont then parseAttributesLoop P fuel ci₁ supers₁ ts₁ (ws ++ w₁)
      else .ok (ci₁, supers₁, ts₁, ws ++ w₁)

/-- DefParser::parseAttributes — if an opening brace follows, consume it and
loop over attributes until the closing brace. -/
def parseAttributes {Expr : Type} (P : ModelParsers Expr)
    (ci : EntityDefinitionClassInfo Expr) (supers : List String) (ts : List Token) :
    Except PErr (EntityDefinitionClassInfo Expr × List String × List Token × List Warning) :=
  if (peekToken ts).type = .OBrace then
    parseAttributesLoop P ((nextToken ts).2.length + 1) ci supers (nextToken ts).2 []
  else .ok (ci, supers, ts, [])

/- ## Description, header and one full class declaration -/

/-- The token split of DefParser::parseDescription: everything up to (not
including) the close-definition marker. -/
def parseDescriptionTokens : List Token → List Token × List Token
  | [] => ([], [])
  | t :: ts =>
    if t.type = .CDefinition then ([], t :: ts)
    else
      let r := parseDescriptionTokens ts
      (t :: r.1, r.2)

/-- The raw description text is reconstructed at token granularity: the data
of the consumed tokens joined by single blanks (Tokenizer::readRemainder
works on the raw character range, which the token-level model abstracts). -/
def descriptionText : List Token → String
  | [] => ""
  | [t] => t.data
  | t :: ts => t.data ++ " " ++ descriptionText ts

/-- Modelled from the spec: kdl::str_trim (outside the provided sources)
strips leading and trailing whitespace. -/
def strTrim (s : String) : String :=
  String.mk (((s.data.dropWhile isWhitespaceChar).reverse.dropWhile isWhitespaceChar).reverse)

/-- Lines 214-217 of the source: after the bounds/question-mark alternative,
a spawnflags clause is consumed iff the next token is a word or minus. -/
def headerFinishSpawnflags {Expr : Type} (ci : EntityDefinitionClassInfo Expr)
    (ts : List Token) : EntityDefinitionClassInfo Expr × List Token :=
  if (peekToken ts).type = .Word ∨ (peekToken ts).type = .Minus then
    (ci.addAttributeDefinition (parseSpawnflags ts).1, (parseSpawnflags ts).2)
  else (ci, ts)

/-- Lines 203-218 of the source when a color is present: parse the color,
then require a bounds clause or a word (the bounds/question-mark alternative;
a question mark is consumed, any other word is left for the spawnflags test),
then consume a spawnflags clause if a word or minus follows. -/
def parseHeaderExtras {Expr : Type} (ci : EntityDefinitionClassInfo Expr)
    (ts : List Token) : Except PErr (EntityDefinitionClassInfo Expr × List Token) :=
  match parseColor ts with
  | .error e => .error e
  | .ok (c, ts₁) =>
    match expect [.OParenthesis, .Word] (peekToken ts₁) with
    | .error e => .error e
    | .ok tok =>
      if tok.type = .OParenthesis then
        match parseBounds ts₁ with
        | .error e => .error e
        | .ok (b, ts₂) => .ok (headerFinishSpawnflags ((ci.setColor c).setSize b) ts₂)
      else if tok.data = "?" then
        .ok (headerFinishSpawnflags (ci.setColor c) (nextToken ts₁).2)
      else
        .ok (headerFinishSpawnflags (ci.setColor c) ts₁)

/-- The header branch of DefParser::parseDefinition: after the name, the next
token must open a color clause or be the newline ending the header; the
optional clause group runs only in the color case. -/
def parseHeader {Expr : Type} (ci : EntityDefinitionClassInfo Expr)
    (ts : List Token) : Except PErr (EntityDefinitionClassInfo Expr × List Token) :=
  match expect [.OParenthesis, .Newline] (peekToken ts) with
  | .error e => .error e
  | .ok tok =>
    if tok.type = .OParenthesis then parseHeaderExtras ci ts
    else .ok (ci, ts)

/-- One class declaration after its opening marker (lines 200-226 of the
source): name, header, attribute block, description and the closing marker. -/
def parseClassInfo {Expr : Type} (P : ModelParsers Expr) (ts : List Token) :
    Except PErr (EntityDefinitionClassInfo Expr × List String × List Token × List Warning) :=
  match expect [.Word] (nextToken ts).1 with
  | .error e => .error e
  | .ok nameTok =>
    let ts₁ := (nextToken ts).2
    let ci₀ : EntityDefinitionClassInfo Expr := { name := nameTok.data }
    match parseHeader ci₀ ts₁ with
    | .error e => .error e
    | .ok (ci₁, ts₂) =>
      match expect [.Newline] (nextToken ts₂).1 with
      | .error e => .error e
      | .ok _ =>
        match parseAttributes P ci₁ [] (nextToken ts₂).2 with
        | .error e => .error e
        | .ok (ci₂, supers, ts₃, ws) =>
          let d := parseDescriptionTokens ts₃
          let ci₃ := ci₂.setDescription (strTrim (descriptionText d.1))
          match expect [.CDefinition] (nextToken d.2).1 with
          | .error e => .error e
          | .ok _ => .ok (ci₃, supers, (nextToken d.2).2, ws)

/- ## Top level (DefParser::parseDefinition / doParseDefinitions) -/

/-- Skip tokens until an open-definition marker (consumed) or end of input. -/
def skipToODefinition : List Token → Option (List Token)
  | [] => none
  | t :: ts => if t.type = .ODefinition then some ts else skipToODefinition ts

/-- Prepend warnings to the warning component of a parseDefinition result. -/
def prependWarnings {Expr : Type} (ws : List Warning) :
    Except PErr (Option (EntityDefinition Expr) × Registry Expr × List Token × List Warning) →
    Except PErr (Option (EntityDefinition Expr) × Registry Expr × List Token × List Warning)
  | .error e => .error e
  | .ok (d, R, ts, ws₂) => .ok (d, R, ts, ws ++ ws₂)

/-- DefParser::parseDefinition — skip to the next block; parse the class info;
if it has a color, resolve base classes and emit a point descriptor (has size)
or a brush descriptor (no size; the caller-supplied default color is the
defensive fallback of the source's conditional); otherwise store it in the
base-class registry under its name and recurse for the next declaration.
Fuel bounds the recursion over base-class declarations. -/
def parseDefinition {Expr : Type} (P : ModelParsers Expr) (defaultColor : Color) :
    Nat → Registry Expr → List Token →
    Except PErr (Option (EntityDefinition Expr) × Registry Expr × List Token × List Warning)
  | 0, _, _ => .error fuelError
  | fuel + 1, R, ts =>
    match skipToODefinition ts with
    | none => .ok (none, R, [], [])
    | some ts₁ =>
      match parseClassInfo P ts₁ with
      | .error e => .error e
      | .ok (ci, supers, ts₂, ws) =>
        if ci.color.isSome then
          let ci₁ := resolveBaseClasses R supers ci
          match ci₁.size with
          | some size =>
            .ok (some (.point ci₁.name (match ci₁.color with
                | some c => c
                | none => defaultColor) size (ci₁.description.getD "")
                ci₁.attributes ci₁.modelDef), R, ts₂, ws)
          | none =>
            .ok (some (.brush ci₁.name (match ci₁.color with
                | some c => c
                | none => defaultColor) (ci₁.description.getD "")
                ci₁.attributes), R, ts₂, ws)
        else
          prependWarnings ws
            (parseDefinition P defaultColor fuel (baseInsert R ci.name ci) ts₂)

/-- DefParser::doParseDefinitions — the top-level loop: collect descriptors
until parseDefinition yields none; any error releases the collected
descriptors and is re-raised. -/
def doParseDefinitions {Expr : Type} (P : ModelParsers Expr) (defaultColor : Color) :
    Nat → Registry Expr → List Token →
    Except PErr (List (EntityDefinition Expr) × List Warning)
  | 0, _, _ => .error fuelError
  | fuel + 1, R, ts =>
    match parseDefinition P defaultColor (fuel + 1) R ts with
    | .error e => .error e
    | .ok (none, _, _, ws) => .ok ([], ws)
    | .ok (some d, R₁, ts₁, ws) =>
      match doParseDefinitions P defaultColor fuel R₁ ts₁ with
      | .error e => .error e
      | .ok (ds, ws₁) => .ok (d :: ds, ws ++ ws₁)

/-- A chain of successful parseDefinition steps, each producing a descriptor,
linking a starting fuel/registry/stream to a later one.  Used to state that a
failure after any number of successful declarations aborts the whole parse. -/
inductive ParsePrefix {Expr : Type} (P : ModelParsers Expr) (dc : Color) :
    Nat → Registry Expr → List Token → Nat → Registry Expr → List Token → Prop where
  | refl (f : Nat) (R : Registry Expr) (ts : List Token) : ParsePrefix P dc f R ts f R ts
  | step {f : Nat} {R : Registry Expr} {ts : List Token}
      {d : EntityDefinition Expr} {R₁ : Registry Expr} {ts₁ : List Token}
      {ws : List Warning} {f₂ : Nat} {R₂ : Registry Expr} {ts₂ : List Token} :
      parseDefinition P dc (f + 1) R ts = .ok (some d, R₁, ts₁, ws) →
      ParsePrefix P dc f R₁ ts₁ f₂ R₂ ts₂ →
      ParsePrefix P dc (f + 1) R ts f₂ R₂ ts₂

/- ## Support definitions for concrete statements -/

/-- Shorthand for a token at position (0, 0). -/
def tok (ty : DefTokenType) (d : String) : Token := ⟨ty, d, 0, 0⟩

/-- A trivial instantiation of the abstracted model-expression components,
used to evaluate the parser on concrete inputs. -/
def unitParsers : ModelParsers Unit where
  modern := fun ts => .ok ((), ts)
  legacy := fun ts => .ok ((), ts)
  optimize := id
  asString := fun _ => "model"

/-- Black, used as the concrete caller-supplied default entity color. -/
def defaultColor0 : Color := ⟨0, 0, 0, 1⟩

/-- Whether the head token of a stream could continue a spawnflags clause. -/
def headIsFlagToken : List Token → Bool
  | [] => false
  | t :: _ => t.type = .Word ∨ t.type = .Minus

/-- Direct specification of the options produced by the spawnflags loop from
a run of word/minus tokens, starting at bit position n. -/
def flagOptionsFrom (n : Nat) : List Token → List FlagOption
  | [] => []
  | t :: ts =>
    ⟨2 ^ n, if t.type = .Word then t.data else "", "", false⟩ :: flagOptionsFrom (n + 1) ts

/-- Default element for indexing into flag-option lists. -/
def defaultFlagOption : FlagOption := ⟨0, "", "", true⟩

/-- A model-parser instantiation whose modern grammar always fails and whose
legacy grammar always succeeds, used to exercise the fallback path on a
concrete input. -/
def mixedParsers : ModelParsers Unit where
  modern := fun _ => .error ⟨7, 9, "modern error"⟩
  legacy := fun ts => .ok ((), ts)
  optimize := id
  asString := fun _ => "replacement"

/- # Theorems -/

/- ## Helper lemmas -/

theorem expect_ok {tys : List DefTokenType} {t : Token} (h : t.type ∈ tys) :
    expect tys t = .ok t := by
  simp [expect, h]

@[simp] theorem nextToken_cons (t : Token) (ts : List Token) :
    nextToken (t :: ts) = (t, ts) := rfl

@[simp] theorem nextToken_nil : nextToken [] = (eofToken, []) := rfl

@[simp] theorem peekToken_cons (t : Token) (ts : List Token) :
    peekToken (t :: ts) = t := rfl

@[simp] theorem strTrim_empty : strTrim "" = "" := rfl

@[simp] theorem color_setColor {Expr : Type} (ci : EntityDefinitionClassInfo Expr) (c : Color) :
    (ci.setColor c).color = some c := rfl

@[simp] theorem color_setSize {Expr : Type} (ci : EntityDefinitionClassInfo Expr) (b : BBox3) :
    (ci.setSize b).color = ci.color := rfl

@[simp] theorem color_addAttributeDefinition {Expr : Type} (ci : EntityDefinitionClassInfo Expr)
    (a : AttributeDefinition) : (ci.addAttributeDefinition a).color = ci.color := rfl

@[simp] theorem color_setDescription {Expr : Type} (ci : EntityDefinitionClassInfo Expr)
    (d : String) : (ci.setDescription d).color = ci.color := rfl

@[simp] theorem color_setModelDefinition {Expr : Type} (ci : EntityDefinitionClassInfo Expr)
    (m : ModelDefinition Expr) : (ci.setModelDefinition m).color = ci.color := rfl

@[simp] theorem strTrim_descriptionText_nil : strTrim (descriptionText []) = "" := rfl

theorem legacyWarningMessage_ne_empty (s : String) : legacyWarningMessage s ≠ "" := by
  intro h
  have h₂ := congrArg String.length h
  rw [legacyWarningMessage, String.length_append, String.length_append] at h₂
  have h₃ : ("'" : String).length = 1 := rfl
  rw [h₃] at h₂
  have h₄ : ("" : String).length = 0 := rfl
  rw [h₄] at h₂
  omega

theorem parseSpawnflagsLoop_spec (toks rest : List Token) (n : Nat)
    (acc : List FlagOption)
    (htoks : ∀ t ∈ toks, t.type = .Word ∨ t.type = .Minus)
    (hrest : headIsFlagToken rest = false) :
    parseSpawnflagsLoop n acc (toks ++ rest) = (acc ++ flagOptionsFrom n toks, rest) := by
  induction toks generalizing n acc with
  | nil =>
    simp only [List.nil_append, flagOptionsFrom, List.append_nil]
    cases rest with
    | nil => simp [parseSpawnflagsLoop]
    | cons r rs =>
      simp only [headIsFlagToken, decide_eq_false_iff_not] at hrest
      simp [parseSpawnflagsLoop, hrest]
  | cons t ts ih =>
    have ht := htoks t (by simp)
    simp only [List.cons_append, parseSpawnflagsLoop, flagOptionsFrom, List.append_eq]
    rw [if_pos ht, ih _ _ (fun u hu => htoks u (by simp [hu])) ]
    simp

theorem flagOptionsFrom_length (n : Nat) (toks : List Token) :
    (flagOptionsFrom n toks).length = toks.length := by
  induction toks generalizing n with
  | nil => rfl
  | cons t ts ih => simp [flagOptionsFrom, ih]

theorem flagOptionsFrom_getD (toks : List Token) (n i : Nat) (h : i < toks.length) :
    (flagOptionsFrom n toks).getD i defaultFlagOption =
      ⟨2 ^ (n + i),
        if (toks.getD i eofToken).type = .Word then (toks.getD i eofToken).data else "",
        "", false⟩ := by
  induction toks generalizing n i with
  | nil => simp at h
  | cons t ts ih =>
    cases i with
    | zero => simp [flagOptionsFrom]
    | succ i =>
      have h₂ : i < ts.length := by simpa using h
      simp only [flagOptionsFrom, List.getD_cons_succ]
      rw [ih (n + 1) i h₂]
      have h₃ : n + 1 + i = n + (i + 1) := by omega
      rw [h₃]

theorem headerFinishSpawnflags_color {Expr : Type} (ci : EntityDefinitionClassInfo Expr)
    (ts : List Token) : (headerFinishSpawnflags ci ts).1.color = ci.color := by
  unfold headerFinishSpawnflags
  split
  · simp
  · rfl

theorem parseHeaderExtras_color {Expr : Type} (ci : EntityDefinitionClassInfo Expr)
    (ts : List Token) (ci₁ : EntityDefinitionClassInfo Expr) (ts₁ : List Token)
    (h : parseHeaderExtras ci ts = .ok (ci₁, ts₁)) : ci₁.color.isSome := by
  unfold parseHeaderExtras at h
  split at h
  · exact absurd h (by simp)
  · split at h
    · exact absurd h (by simp)
    · split at h
      · split at h
        · exact absurd h (by simp)
        · simp only [Except.ok.injEq] at h
          have h₂ := congrArg (fun p => (Prod.fst p).color) h
          simp only [headerFinishSpawnflags_color] at h₂
          simp [← h₂]
      · split at h
        · simp only [Except.ok.injEq] at h
          have h₂ := congrArg (fun p => (Prod.fst p).color) h
          simp only [headerFinishSpawnflags_color] at h₂
          simp [← h₂]
        · simp only [Except.ok.injEq] at h
          have h₂ := congrArg (fun p => (Prod.fst p).color) h
          simp only [headerFinishSpawnflags_color] at h₂
          simp [← h₂]

theorem parseColorComponent_cons {t : Token} {ts : List Token}
    (h : t.type = .Decimal ∨ t.type = .Integer) :
    parseColorComponent (t :: ts) = .ok (colorComponent t.toFloat, ts) := by
  rcases h with h | h <;> simp [parseColorComponent, nextToken, expect, h]

theorem parseNumToken_cons {t : Token} {ts : List Token}
    (h : t.type = .Integer ∨ t.type = .Decimal) :
    parseNumToken (t :: ts) = .ok (t.toFloat, ts) := by
  rcases h with h | h <;> simp [parseNumToken, nextToken, expect, h]

theorem parseVector_cons {t1 t2 t3 : Token} {ts : List Token}
    (h1 : t1.type = .Integer ∨ t1.type = .Decimal)
    (h2 : t2.type = .Integer ∨ t2.type = .Decimal)
    (h3 : t3.type = .Integer ∨ t3.type = .Decimal) :
    parseVector (t1 :: t2 :: t3 :: ts) =
      .ok (⟨t1.toFloat, t2.toFloat, t3.toFloat⟩, ts) := by
  simp [parseVector, parseNumToken_cons h1, parseNumToken_cons h2, parseNumToken_cons h3]

/- ## Claim C4 -/

/-- Claim C4: for every color clause of three integer/decimal components, each
stored component equals the raw value divided by 255 when the raw value
exceeds 1.0 and equals the raw value unchanged when it is at most 1.0, and
the stored alpha component is exactly 1.0 regardless of input. -/
theorem claim_c4_color (t1 t2 t3 : Token) (rest : List Token)
    (h1 : t1.type = .Decimal ∨ t1.type = .Integer)
    (h2 : t2.type = .Decimal ∨ t2.type = .Integer)
    (h3 : t3.type = .Decimal ∨ t3.type = .Integer) :
    parseColor (tok .OParenthesis "(" :: t1 :: t2 :: t3 :: tok .CParenthesis ")" :: rest) =
      .ok (⟨colorComponent t1.toFloat, colorComponent t2.toFloat,
            colorComponent t3.toFloat, 1⟩, rest)
    ∧ (∀ v : Rat, 1 < v → colorComponent v = v / 255)
    ∧ (∀ v : Rat, v ≤ 1 → colorComponent v = v) := by
  refine ⟨?_, ?_, ?_⟩
  · simp [parseColor, nextToken, expect, tok, parseColorComponent_cons h1,
      parseColorComponent_cons h2, parseColorComponent_cons h3]
  · intro v hv
    simp [colorComponent, hv]
  · intro v hv
    rw [colorComponent, if_neg (not_lt.mpr hv)]

/-- Witness for C4 on the concrete clause (255 0.5 -3): the first channel is
8-bit and is scaled to 1, the others are kept. -/
theorem claim_c4_color_witness :
    parseColor (tok .OParenthesis "(" :: tok .Integer "255" :: tok .Decimal "0.5" ::
        tok .Integer "-3" :: tok .CParenthesis ")" :: []) =
      .ok (⟨colorComponent (Token.toFloat (tok .Integer "255")),
            colorComponent (Token.toFloat (tok .Decimal "0.5")),
            colorComponent (Token.toFloat (tok .Integer "-3")), 1⟩, [])
    ∧ colorComponent (Token.toFloat (tok .Integer "255")) = 1 := by
  have h := claim_c4_color (tok .Integer "255") (tok .Decimal "0.5") (tok .Integer "-3") []
    (by decide) (by decide) (by decide)
  refine ⟨h.1, ?_⟩
  have hval : Token.toFloat (tok .Integer "255") = 255 := by
    simp [Token.toFloat, ratOfString, ratOfMagnitude, natOfDigits, digitVal, tok]
  rw [h.2.1 _ (by rw [hval]; norm_num), hval]
  norm_num

/- ## Claim C5 -/

/-- Claim C5: for every bounds clause of two 3-vectors, the stored box is the
elementwise minimum/maximum of the two parsed corners and therefore satisfies
min ≤ max componentwise regardless of the ordering of the two input corners. -/
theorem claim_c5_bounds (t1 t2 t3 t4 t5 t6 : Token) (rest : List Token)
    (h1 : t1.type = .Integer ∨ t1.type = .Decimal)
    (h2 : t2.type = .Integer ∨ t2.type = .Decimal)
    (h3 : t3.type = .Integer ∨ t3.type = .Decimal)
    (h4 : t4.type = .Integer ∨ t4.type = .Decimal)
    (h5 : t5.type = .Integer ∨ t5.type = .Decimal)
    (h6 : t6.type = .Integer ∨ t6.type = .Decimal) :
    parseBounds (tok .OParenthesis "(" :: t1 :: t2 :: t3 :: tok .CParenthesis ")" ::
        tok .OParenthesis "(" :: t4 :: t5 :: t6 :: tok .CParenthesis ")" :: rest) =
      .ok (⟨vecMin ⟨t1.toFloat, t2.toFloat, t3.toFloat⟩ ⟨t4.toFloat, t5.toFloat, t6.toFloat⟩,
            vecMax ⟨t1.toFloat, t2.toFloat, t3.toFloat⟩ ⟨t4.toFloat, t5.toFloat, t6.toFloat⟩⟩,
        rest)
    ∧ Vec3.le
        (vecMin ⟨t1.toFloat, t2.toFloat, t3.toFloat⟩ ⟨t4.toFloat, t5.toFloat, t6.toFloat⟩)
        (vecMax ⟨t1.toFloat, t2.toFloat, t3.toFloat⟩ ⟨t4.toFloat, t5.toFloat, t6.toFloat⟩) := by
  constructor
  · simp [parseBounds, nextToken, expect, tok, repair,
      parseVector_cons h1 h2 h3, parseVector_cons h4 h5 h6]
  · exact ⟨min_le_max, min_le_max, min_le_max⟩

/-- Witness for C5 on swapped corners (16 16 32) then (-16 -16 0): the stored
minimum is the elementwise minimum of the corners. -/
theorem claim_c5_bounds_witness :
    parseBounds (tok .OParenthesis "(" :: tok .Integer "16" :: tok .Integer "16" ::
        tok .Integer "32" :: tok .CParenthesis ")" ::
        tok .OParenthesis "(" :: tok .Integer "-16" :: tok .Integer "-16" ::
        tok .Integer "0" :: tok .CParenthesis ")" :: []) =
      .ok (⟨vecMin ⟨Token.toFloat (tok .Integer "16"), Token.toFloat (tok .Integer "16"),
                Token.toFloat (tok .Integer "32")⟩
              ⟨Token.toFloat (tok .Integer "-16"), Token.toFloat (tok .Integer "-16"),
                Token.toFloat (tok .Integer "0")⟩,
            vecMax ⟨Token.toFloat (tok .Integer "16"), Token.toFloat (tok .Integer "16"),
                Token.toFloat (tok .Integer "32")⟩
              ⟨Token.toFloat (tok .Integer "-16"), Token.toFloat (tok .Integer "-16"),
                Token.toFloat (tok .Integer "0")⟩⟩, [])
    ∧ (vecMin ⟨Token.toFloat (tok .Integer "16"), Token.toFloat (tok .Integer "16"),
          Token.toFloat (tok .Integer "32")⟩
        ⟨Token.toFloat (tok .Integer "-16"), Token.toFloat (tok .Integer "-16"),
          Token.toFloat (tok .Integer "0")⟩).x = -16 := by
  have h := claim_c5_bounds (tok .Integer "16") (tok .Integer "16") (tok .Integer "32")
    (tok .Integer "-16") (tok .Integer "-16") (tok .Integer "0") []
    (by decide) (by decide) (by decide) (by decide) (by decide) (by decide)
  refine ⟨h.1, ?_⟩
  have hv16 : Token.toFloat (tok .Integer "16") = 16 := by
    simp [Token.toFloat, ratOfString, ratOfMagnitude, natOfDigits, digitVal, tok]
  have hvm16 : Token.toFloat (tok .Integer "-16") = -16 := by
    simp [Token.toFloat, ratOfString, ratOfMagnitude, natOfDigits, digitVal, tok]
  simp [vecMin, hv16, hvm16]

/- ## Claim C10 -/

/-- Claim C10: a choice attribute whose option list contains zero options —
the quoted name followed by an immediately closed parenthesis pair — parses
successfully and yields a Choice attribute definition with an empty option
list, both at the parseChoiceAttribute level and when dispatched from a
choice keyword inside the attribute block. -/
theorem claim_c10_choice_empty {Expr : Type} (P : ModelParsers Expr)
    (ci : EntityDefinitionClassInfo Expr) (supers : List String)
    (nm : String) (rest : List Token) :
    parseChoiceAttribute (tok .QuotedString nm :: tok .OParenthesis "(" ::
        tok .CParenthesis ")" :: rest) =
      .ok (.choice nm "" "" [] false, rest)
    ∧ parseAttribute P ci supers (tok .Word "choice" :: tok .QuotedString nm ::
        tok .OParenthesis "(" :: tok .CParenthesis ")" :: tok .Semicolon ";" :: rest) =
      .ok (true, ci.addAttributeDefinition (.choice nm "" "" [] false), supers, rest, []) := by
  constructor
  · simp [parseChoiceAttribute, parseChoiceOptionsLoop, nextTokenIgnoringNewlines, nextToken,
      expect, tok]
  · simp [parseAttribute, parseChoiceAttribute, parseChoiceOptionsLoop,
      nextTokenIgnoringNewlines, nextToken, expect, tok]

/- ## Claim C8 (corrected) -/

/-- Counterexample to claim C8: inside an attribute block, a leading word
other than default, base, choice and model does not cause the parse to fail
— the unknown attribute word zzz followed by a semicolon parses successfully
and changes nothing. -/
theorem claim_c8_counterexample :
    parseAttribute unitParsers ({ name := "c" } : EntityDefinitionClassInfo Unit) []
      [tok .Word "zzz", tok .Semicolon ";"] =
    .ok (true, { name := "c" }, [], [], []) := by
  simp [parseAttribute, nextTokenIgnoringNewlines, expect, tok]

/-- Claim C8 amended: an unknown leading word inside the attribute block is
not itself a grammar error: the word is dispatched to no branch and ignored,
and parsing continues by requiring a semicolon — it fails afterwards exactly
when the next non-newline token is not a semicolon. -/
theorem claim_c8_amended {Expr : Type} (P : ModelParsers Expr)
    (ci : EntityDefinitionClassInfo Expr) (supers : List String)
    (w t : Token) (rest : List Token)
    (hw : w.type = .Word)
    (h1 : w.data ≠ "default") (h2 : w.data ≠ "base")
    (h3 : w.data ≠ "choice") (h4 : w.data ≠ "model")
    (hsemi : t.type ≠ .Semicolon) (hnl : t.type ≠ .Newline) :
    parseAttribute P ci supers (w :: tok .Semicolon ";" :: rest) =
      .ok (true, ci, supers, rest, [])
    ∧ parseAttribute P ci supers (w :: t :: rest) =
      .error (expectedError [.Semicolon] t) := by
  constructor
  · simp [parseAttribute, nextTokenIgnoringNewlines, expect, tok, hw, h1, h2, h3, h4]
  · simp [parseAttribute, nextTokenIgnoringNewlines, expect, tok, hw, h1, h2, h3, h4,
      hsemi, hnl]

/-- Witness for the amended C8: the unknown word other parses with a
semicolon and fails on a word in place of the semicolon. -/
theorem claim_c8_amended_witness :
    parseAttribute unitParsers ({ name := "c" } : EntityDefinitionClassInfo Unit) []
      (tok .Word "other" :: tok .Semicolon ";" :: []) =
      .ok (true, { name := "c" }, [], [], [])
    ∧ parseAttribute unitParsers ({ name := "c" } : EntityDefinitionClassInfo Unit) []
      (tok .Word "other" :: tok .Word "x" :: []) =
      .error (expectedError [.Semicolon] (tok .Word "x")) :=
  claim_c8_amended unitParsers { name := "c" } [] (tok .Word "other") (tok .Word "x") []
    (by decide) (by decide) (by decide) (by decide) (by decide) (by decide) (by decide)

/- ## Claim C9 (corrected) -/

/-- Counterexample to claim C9: a '/' followed by neither '*' nor '/' does
not produce a block-comment-close token — the C++ switch falls through into
the '(' case and an open-parenthesis token is returned; and for '*' followed
by '/' the close token is returned after a single advance, so only the '*'
is consumed and the '/' is left in the stream. -/
theorem claim_c9_counterexample :
    emitToken ⟨['/', 'a'], 1, 1⟩ =
      .ok (⟨.OParenthesis, "/", 1, 1⟩, ⟨['a'], 1, 2⟩)
    ∧ emitToken ⟨['*', '/', '\n'], 1, 1⟩ =
      .ok (⟨.CDefinition, "*", 1, 1⟩, ⟨['/', '\n'], 1, 2⟩) := by
  constructor <;> simp [emitToken, fallthroughStar]

/-- Claim C9 amended: at a '/' followed by neither '*' nor '/', the scanner
returns an open-parenthesis token consuming one character (the switch
fallthrough lands in the '(' case); at a '*' followed by '/', it returns a
block-comment-close token consuming only the '*', the '/' remaining in the
input. -/
theorem claim_c9_amended (c : Char) (rest t : List Char) (ln col : Nat)
    (h1 : c ≠ '*') (h2 : c ≠ '/') :
    emitToken ⟨'/' :: c :: rest, ln, col⟩ =
      .ok (⟨.OParenthesis, "/", ln, col⟩, ⟨c :: rest, ln, col + 1⟩)
    ∧ emitToken ⟨'*' :: '/' :: t, ln, col⟩ =
      .ok (⟨.CDefinition, "*", ln, col⟩, ⟨'/' :: t, ln, col + 1⟩) := by
  constructor
  · simp [emitToken, fallthroughStar, h1, h2]
  · simp [emitToken, fallthroughStar]

/-- Witness for the amended C9 at the inputs /a and */ (blank-terminated). -/
theorem claim_c9_amended_witness :
    emitToken ⟨['/', 'a'], 3, 4⟩ =
      .ok (⟨.OParenthesis, "/", 3, 4⟩, ⟨['a'], 3, 5⟩)
    ∧ emitToken ⟨['*', '/', ' '], 3, 4⟩ =
      .ok (⟨.CDefinition, "*", 3, 4⟩, ⟨['/', ' '], 3, 5⟩) :=
  claim_c9_amended 'a' [] [' '] 3 4 (by decide) (by decide)

/- ## Claim C3 -/

/-- Claim C3: for every spawnflags clause consisting of k word-or-minus
tokens, the i-th declared flag (0-indexed) has bit-value 2 ^ i, so values are
unique and strictly increasing in declaration order; a minus-only entry
yields an option with empty name but still consumes one bit position; and the
clause is consumed only when a color was present in the header (the
spawnflags parser runs only inside the color branch, whose results always
carry a color, while a header without a color clause consumes nothing after
the name). -/
theorem claim_c3_spawnflags {Expr : Type} (toks rest : List Token)
    (htoks : ∀ t ∈ toks, t.type = .Word ∨ t.type = .Minus)
    (hrest : headIsFlagToken rest = false) :
    parseSpawnflags (toks ++ rest) =
      (.flags spawnflagsName (flagOptionsFrom 0 toks), rest)
    ∧ (flagOptionsFrom 0 toks).length = toks.length
    ∧ (∀ i, i < toks.length →
        ((flagOptionsFrom 0 toks).getD i defaultFlagOption).value = 2 ^ i
        ∧ ((flagOptionsFrom 0 toks).getD i defaultFlagOption).shortDescription =
          (if (toks.getD i eofToken).type = .Word then (toks.getD i eofToken).data else ""))
    ∧ (∀ i j, i < j → j < toks.length →
        ((flagOptionsFrom 0 toks).getD i defaultFlagOption).value <
          ((flagOptionsFrom 0 toks).getD j defaultFlagOption).value)
    ∧ (∀ (ci : EntityDefinitionClassInfo Expr) (ts₂ : List Token),
        (peekToken ts₂).type ≠ .OParenthesis →
        parseHeader ci ts₂ =
          if (peekToken ts₂).type = .Newline then .ok (ci, ts₂)
          else .error (expectedError [.OParenthesis, .Newline] (peekToken ts₂)))
    ∧ (∀ (ci ci₂ : EntityDefinitionClassInfo Expr) (ts₂ ts₃ : List Token),
        parseHeaderExtras ci ts₂ = .ok (ci₂, ts₃) → ci₂.color.isSome) := by
  refine ⟨?_, flagOptionsFrom_length 0 toks, ?_, ?_, ?_, ?_⟩
  · simp [parseSpawnflags, parseSpawnflagsLoop_spec toks rest 0 [] htoks hrest]
  · intro i hi
    rw [flagOptionsFrom_getD toks 0 i hi]
    simp
  · intro i j hij hj
    rw [flagOptionsFrom_getD toks 0 i (lt_trans hij hj), flagOptionsFrom_getD toks 0 j hj]
    simpa using Nat.pow_lt_pow_right (by norm_num) hij
  · intro ci ts₂ hno
    by_cases hnl : (peekToken ts₂).type = .Newline
    · simp [parseHeader, expect, hnl, hno]
    · simp [parseHeader, expect, hnl, hno]
  · exact fun ci ci₂ ts₂ ts₃ h => parseHeaderExtras_color ci ts₂ ci₂ ts₃ h

/-- Witness for C3 on the clause NOTINDEATHMATCH - DROP: three flag options
with values 1, 2, 4, the minus option having an empty name. -/
theorem claim_c3_spawnflags_witness :
    parseSpawnflags ([tok .Word "NOTINDEATHMATCH", tok .Minus "-", tok .Word "DROP"] ++
        [tok .Newline ""]) =
      (.flags spawnflagsName
        (flagOptionsFrom 0 [tok .Word "NOTINDEATHMATCH", tok .Minus "-", tok .Word "DROP"]),
        [tok .Newline ""])
    ∧ ((flagOptionsFrom 0
        [tok .Word "NOTINDEATHMATCH", tok .Minus "-", tok .Word "DROP"]).getD
        2 defaultFlagOption).value = 4
    ∧ ((flagOptionsFrom 0
        [tok .Word "NOTINDEATHMATCH", tok .Minus "-", tok .Word "DROP"]).getD
        1 defaultFlagOption).shortDescription = "" := by
  have h := @claim_c3_spawnflags Unit
    [tok .Word "NOTINDEATHMATCH", tok .Minus "-", tok .Word "DROP"] [tok .Newline ""]
    (by decide) (by decide)
  refine ⟨h.1, ?_, ?_⟩
  · have h₂ := (h.2.2.1 2 (by norm_num)).1
    rw [h₂]
    norm_num
  · have h₃ := (h.2.2.1 1 (by norm_num)).2
    rw [h₃]
    decide

/- ## Claim C2 -/

/-- Claim C2: a parsed declaration without a color adds no descriptor to the
output — the parse continues with the next declaration over an updated
registry — and its Class-Info is stored in the base-class registry under its
declared name, overwriting any earlier entry of that name (last-write-wins,
for every prior registry) while other names are untouched; a later
declaration that names it as a base resolves against exactly the stored
entry. -/
theorem claim_c2_base_registry {Expr : Type} (P : ModelParsers Expr) (dc : Color)
    (fuel : Nat) (R : Registry Expr) (ts ts₁ ts₂ : List Token)
    (ci : EntityDefinitionClassInfo Expr) (supers : List String) (ws : List Warning)
    (hskip : skipToODefinition ts = some ts₁)
    (hci : parseClassInfo P ts₁ = .ok (ci, supers, ts₂, ws))
    (hnc : ci.color = none) :
    parseDefinition P dc (fuel + 1) R ts =
      prependWarnings ws (parseDefinition P dc fuel (baseInsert R ci.name ci) ts₂)
    ∧ lookupBase (baseInsert R ci.name ci) ci.name = some ci
    ∧ (∀ m, m ≠ ci.name → lookupBase (baseInsert R ci.name ci) m = lookupBase R m)
    ∧ (∀ ci₂ : EntityDefinitionClassInfo Expr,
        resolveBaseClasses (baseInsert R ci.name ci) [ci.name] ci₂ = inheritFrom ci₂ ci) := by
  refine ⟨?_, ?_, ?_, ?_⟩
  · simp [parseDefinition, hskip, hci, hnc]
  · simp [lookupBase, baseInsert]
  · intro m hm
    simp [lookupBase, baseInsert, hm]
  · intro ci₂
    simp [resolveBaseClasses, lookupBase, baseInsert]

/-- Witness for C2: a colorless base_item declaration is folded into the
registry (not emitted), and a class declaring it as a base resolves against
the stored entry. -/
theorem claim_c2_base_registry_witness :
    parseDefinition unitParsers defaultColor0 (0 + 1) emptyRegistry
      [tok .ODefinition "/*", tok .Word "base_item", tok .Newline "", tok .CDefinition "*/"] =
      prependWarnings []
        (parseDefinition unitParsers defaultColor0 0
          (baseInsert (emptyRegistry : Registry Unit) "base_item"
            { name := "base_item", description := some "" })
          [])
    ∧ lookupBase (baseInsert (emptyRegistry : Registry Unit) "base_item"
        { name := "base_item", description := some "" }) "base_item" =
      some { name := "base_item", description := some "" }
    ∧ resolveBaseClasses (baseInsert (emptyRegistry : Registry Unit) "base_item"
        { name := "base_item", description := some "" }) ["base_item"]
        { name := "item_weapon", color := some defaultColor0 } =
      inheritFrom { name := "item_weapon", color := some defaultColor0 }
        { name := "base_item", description := some "" } := by
  have h := claim_c2_base_registry unitParsers defaultColor0 0 emptyRegistry
    [tok .ODefinition "/*", tok .Word "base_item", tok .Newline "", tok .CDefinition "*/"]
    [tok .Word "base_item", tok .Newline "", tok .CDefinition "*/"] []
    { name := "base_item", description := some "" } [] []
    (by rfl) (by rfl) (by rfl)
  exact ⟨h.1, h.2.1, h.2.2.2 { name := "item_weapon", color := some defaultColor0 }⟩

/- ## Claim C1 -/

/-- Claim C1: for every model clause, the modern grammar is attempted first —
when it succeeds the legacy grammar contributes nothing, the stored
expression is optimized, and no warning is emitted; when the modern attempt
fails and the legacy grammar succeeds (with closing parenthesis), the parse
succeeds, exactly one warning is emitted carrying the pre-trial snapshot
line/column and a non-empty suggested-replacement message, and the stored
expression is optimized before storage; when the modern attempt fails and
the legacy trial also fails — its parse erring, or its closing parenthesis
missing — the scanner is left restored to the pre-trial snapshot and the
original modern-grammar error (never the legacy error) propagates. -/
theorem claim_c1_model_fallback {Expr : Type} (P : ModelParsers Expr)
    (tOpen : Token) (rest : List Token) (hopen : tOpen.type = .OParenthesis) :
    (∀ e ts₁, P.modern rest = .ok (e, ts₁) → (nextToken ts₁).1.type = .CParenthesis →
      parseModel P (tOpen :: rest) = ⟨.ok ⟨P.optimize e⟩, (nextToken ts₁).2, []⟩)
    ∧ (∀ em e ts₂, P.modern rest = .error em → P.legacy rest = .ok (e, ts₂) →
        (nextToken ts₂).1.type = .CParenthesis →
        parseModel P (tOpen :: rest) =
          ⟨.ok ⟨P.optimize e⟩, (nextToken ts₂).2,
            [⟨stateLine rest, stateColumn rest,
              legacyWarningMessage (P.asString (P.optimize e))⟩]⟩
        ∧ legacyWarningMessage (P.asString (P.optimize e)) ≠ "")
    ∧ (∀ em el, P.modern rest = .error em → P.legacy rest = .error el →
        parseModel P (tOpen :: rest) = ⟨.error em, rest, []⟩)
    ∧ (∀ em e ts₂, P.modern rest = .error em → P.legacy rest = .ok (e, ts₂) →
        (nextToken ts₂).1.type ≠ .CParenthesis →
        parseModel P (tOpen :: rest) = ⟨.error em, rest, []⟩) := by
  refine ⟨?_, ?_, ?_, ?_⟩
  · intro e ts₁ hm hc
    simp [parseModel, expect, hopen, hm, hc]
  · intro em e ts₂ hm hl hc
    refine ⟨?_, legacyWarningMessage_ne_empty _⟩
    simp [parseModel, parseModelLegacyTrial, expect, hopen, hm, hl, hc]
  · intro em el hm hl
    simp [parseModel, parseModelLegacyTrial, expect, hopen, hm, hl]
  · intro em e ts₂ hm hl hc
    simp [parseModel, parseModelLegacyTrial, expect, hopen, hm, hl, hc]

/-- Witness for C1: with a modern grammar that always fails and a legacy
grammar that always succeeds, the fallback path yields the optimized
expression and exactly one deprecation warning at the snapshot position. -/
theorem claim_c1_model_fallback_witness :
    parseModel mixedParsers (tok .OParenthesis "(" :: tok .CParenthesis ")" :: []) =
      ⟨.ok ⟨()⟩, [], [⟨0, 0, legacyWarningMessage "replacement"⟩]⟩
    ∧ legacyWarningMessage "replacement" ≠ "" :=
  (claim_c1_model_fallback mixedParsers (tok .OParenthesis "(")
      [tok .CParenthesis ")"] (by decide)).2.1 ⟨7, 9, "modern error"⟩ ()
      [tok .CParenthesis ")"] (by rfl) (by rfl) (by rfl)

/- ## Claim C6 -/

/-- Claim C6: the top-level parse either returns a complete descriptor list or
propagates a single error — after any number of successfully parsed
declarations, a failing declaration makes doParseDefinitions return exactly
that error: the accumulated descriptors are discarded and parsing never
continues with the remaining declarations. -/
theorem claim_c6_no_partial {Expr : Type} (P : ModelParsers Expr) (dc : Color)
    (f f₂ : Nat) (R R₂ : Registry Expr) (ts ts₂ : List Token) (e : PErr)
    (hpre : ParsePrefix P dc f R ts f₂ R₂ ts₂)
    (herr : parseDefinition P dc f₂ R₂ ts₂ = .error e) :
    doParseDefinitions P dc f R ts = .error e := by
  revert herr
  induction hpre with
  | refl f R ts =>
    intro herr
    cases f with
    | zero =>
      have h0 : parseDefinition P dc 0 R ts =
          (Except.error fuelError :
            Except PErr (Option (EntityDefinition Expr) × Registry Expr × List Token × List Warning)) := rfl
      rw [h0] at herr
      simp only [Except.error.injEq] at herr
      have h1 : doParseDefinitions P dc 0 R ts =
          (Except.error fuelError : Except PErr (List (EntityDefinition Expr) × List Warning)) := rfl
      rw [h1, herr]
    | succ f =>
      simp only [doParseDefinitions, herr]
  | step hstep hrest ih =>
    intro herr
    simp only [doParseDefinitions, hstep]
    simp only [ih herr]

/-- Witness for C6: a well-formed declaration followed by a malformed one —
the whole parse returns the error of the malformed declaration and no
partial descriptor list. -/
theorem claim_c6_no_partial_witness :
    doParseDefinitions unitParsers defaultColor0 ((0 + 1) + 1) emptyRegistry
      [tok .ODefinition "/*", tok .Word "a", tok .OParenthesis "(",
       tok .Integer "0", tok .Integer "0", tok .Integer "0", tok .CParenthesis ")",
       tok .Word "?", tok .Newline "\n", tok .CDefinition "*/",
       tok .ODefinition "/*", tok .Word "b", tok .OParenthesis "(", tok .CParenthesis ")"] =
      .error (expectedError [.Decimal, .Integer] (tok .CParenthesis ")")) := by
  apply claim_c6_no_partial unitParsers defaultColor0 ((0 + 1) + 1) (0 + 1)
    emptyRegistry emptyRegistry _
    [tok .ODefinition "/*", tok .Word "b", tok .OParenthesis "(", tok .CParenthesis ")"] _
  · have hstep : parseDefinition unitParsers defaultColor0 ((0 + 1) + 1) emptyRegistry
        [tok .ODefinition "/*", tok .Word "a", tok .OParenthesis "(",
         tok .Integer "0", tok .Integer "0", tok .Integer "0", tok .CParenthesis ")",
         tok .Word "?", tok .Newline "\n", tok .CDefinition "*/",
         tok .ODefinition "/*", tok .Word "b", tok .OParenthesis "(", tok .CParenthesis ")"] =
        .ok (some (.brush "a" ⟨0, 0, 0, 1⟩ "" []), emptyRegistry,
          [tok .ODefinition "/*", tok .Word "b", tok .OParenthesis "(",
           tok .CParenthesis ")"], []) := by
      simp [parseDefinition, skipToODefinition, parseClassInfo, parseHeader, parseHeaderExtras,
        headerFinishSpawnflags, parseColor, parseColorComponent, colorComponent,
        parseAttributes, parseDescriptionTokens, descriptionText, expect, nextToken, peekToken,
        Token.toFloat, ratOfString, ratOfMagnitude, natOfDigits, digitVal, tok,
        resolveBaseClasses, EntityDefinitionClassInfo.setColor,
        EntityDefinitionClassInfo.setDescription]
    exact ParsePrefix.step hstep
      (ParsePrefix.refl (0 + 1) emptyRegistry
        [tok .ODefinition "/*", tok .Word "b", tok .OParenthesis "(", tok .CParenthesis ")"])
  · simp [parseDefinition, skipToODefinition, parseClassInfo, parseHeader, parseHeaderExtras,
      parseColor, parseColorComponent, expect, nextToken, peekToken, tok]

/- ## Claim C7 (corrected) -/

/-- Counterexample to claim C7: a declaration whose header has a color clause
but no bounds clause, no question-mark word and no spawnflags is rejected —
after the color the source requires an opening parenthesis or a word, so the
newline ending the header raises a syntax error. -/
theorem claim_c7_counterexample :
    parseDefinition unitParsers defaultColor0 (0 + 1) emptyRegistry
      [tok .ODefinition "/*", tok .Word "worldspawn", tok .OParenthesis "(",
       tok .Integer "0", tok .Integer "0", tok .Integer "0", tok .CParenthesis ")",
       tok .Newline "\n", tok .CDefinition "*/"] =
      .error (expectedError [.OParenthesis, .Word] (tok .Newline "\n")) := by
  simp [parseDefinition, skipToODefinition, parseClassInfo, parseHeader, parseHeaderExtras,
    parseColor, parseColorComponent, expect, nextToken, peekToken, tok]

/-- Claim C7 amended: a header with a color clause must be followed by a
bounds clause, a question mark or a (spawnflag) word; with a question mark —
and still no bounds, no spawnflags and no attribute block — the declaration
is valid and yields a brush descriptor, while a color clause followed
directly by the header newline is a syntax error. -/
theorem claim_c7_amended {Expr : Type} (P : ModelParsers Expr) (dc : Color)
    (fuel : Nat) (R : Registry Expr) (nm d1 d2 d3 : String) (rest : List Token) :
    parseDefinition P dc (fuel + 1) R
      (tok .ODefinition "/*" :: tok .Word nm :: tok .OParenthesis "(" ::
       tok .Integer d1 :: tok .Integer d2 :: tok .Integer d3 :: tok .CParenthesis ")" ::
       tok .Word "?" :: tok .Newline "\n" :: tok .CDefinition "*/" :: rest) =
      .ok (some (.brush nm
          ⟨colorComponent (ratOfString d1), colorComponent (ratOfString d2),
           colorComponent (ratOfString d3), 1⟩ "" []), R, rest, [])
    ∧ parseDefinition P dc (fuel + 1) R
      (tok .ODefinition "/*" :: tok .Word nm :: tok .OParenthesis "(" ::
       tok .Integer d1 :: tok .Integer d2 :: tok .Integer d3 :: tok .CParenthesis ")" ::
       tok .Newline "\n" :: tok .CDefinition "*/" :: rest) =
      .error (expectedError [.OParenthesis, .Word] (tok .Newline "\n")) := by
  constructor
  · simp [parseDefinition, skipToODefinition, parseClassInfo, parseHeader, parseHeaderExtras,
      headerFinishSpawnflags, parseColor, parseColorComponent, parseAttributes,
      parseDescriptionTokens, descriptionText, expect, nextToken, peekToken,
      Token.toFloat, tok, resolveBaseClasses, EntityDefinitionClassInfo.setColor,
      EntityDefinitionClassInfo.setDescription]
  · simp [parseDefinition, skipToODefinition, parseClassInfo, parseHeader, parseHeaderExtras,
      parseColor, parseColorComponent, expect, nextToken, peekToken, tok]

end TrenchBroom
